import Mathlib

/-
Verification of the sampling-and-seeding layer of the fortio/rand package
(src/rand.go), a thin wrapper over an external core generator
(stdlib math/rand/v2 PCG).

Modelling choices:
- The core generator is external to the repository (the spec treats it as a
  collaborator with a stated capability set), so it is embedded as an abstract
  deterministic state machine: a state type together with the draw functions
  the repository calls (uniform float in [0,1), standard normal, bounded int,
  raw 64-bit) and the two-word seeding constructor.  The Go float64 values are
  modelled as real numbers.
- The bounded-integer capability is fallible: math/rand/v2 documents that
  IntN panics when n <= 0, which is modelled as an Option result (none =
  panic); the repository wrapper forwards to it without any check.
- Go uint64 values are modelled as natural numbers below 2^64; the Go
  conversion uint64(idx) of a (64-bit) int is reduction modulo 2^64.
- The two unbounded rejection loops (RandomUnitVector, SampleDisc) are
  embedded with explicit fuel, returning none when the fuel is exhausted and
  also returning the generator state reached.
-/

namespace FortioRand

/-- Abstract model of the external core generator (math/rand/v2 Rand over
PCG): a state type with deterministic draw functions.  nextFloat is the
uniform draw in [0,1), nextNorm the standard-normal draw, nextIntN the
bounded-integer draw (none models the documented panic of math/rand/v2 IntN
for n <= 0), nextUint64 the raw 64-bit draw, and newPCG the two-word seeding
constructor rand.New(rand.NewPCG(seed1, seed2)). -/
structure GenModel (σ : Type) where
  nextFloat : σ → ℝ × σ
  nextNorm : σ → ℝ × σ
  nextIntN : ℤ → σ → Option (ℤ × σ)
  nextUint64 : σ → ℕ × σ
  newPCG : ℕ → ℕ → σ

/-- The external contract of Float64: every uniform draw lies in [0,1). -/
def GenModel.ValidFloats {σ : Type} (G : GenModel σ) : Prop :=
  ∀ st : σ, 0 ≤ (G.nextFloat st).1 ∧ (G.nextFloat st).1 < 1

/-- Go conversion uint64(idx) of an int index: reduction modulo 2^64
(two's complement for negative values). -/
def uint64ofInt (i : ℤ) : ℕ := (i % 2 ^ 64).toNat

/-- newRandSeeds(seed1, seed2) = Rand{rng: rand.New(rand.NewPCG(seed1, seed2))}. -/
def newRandSeeds {σ : Type} (G : GenModel σ) (seed1 seed2 : ℕ) : σ :=
  G.newPCG seed1 seed2

/-- NewRandIdx(idx, seed): seed1 := uint64(idx); seed2 := seed; if seed == 0
both are replaced by entropy draws (e1, e2 model the two rand.Uint64() calls
on the process-wide source). -/
def NewRandIdx {σ : Type} (G : GenModel σ) (e1 e2 : ℕ) (idx : ℤ) (seed : ℕ) : σ :=
  let seed1 := uint64ofInt idx
  let seed2 := seed
  if seed = 0 then newRandSeeds G e1 e2 else newRandSeeds G seed1 seed2

/-- NewRand(seed) = NewRandIdx(0, seed). -/
def NewRand {σ : Type} (G : GenModel σ) (e1 e2 : ℕ) (seed : ℕ) : σ :=
  NewRandIdx G e1 e2 0 seed

/-- Forward method Float64. -/
def Float64 {σ : Type} (G : GenModel σ) (st : σ) : ℝ × σ := G.nextFloat st

/-- Forward method NormFloat64. -/
def NormFloat64 {σ : Type} (G : GenModel σ) (st : σ) : ℝ × σ := G.nextNorm st

/-- Forward method IntN: no check in the wrapper, forwards to the core
generator (whose result is none, a panic, for n <= 0 under the default
math/rand/v2 engine). -/
def IntN {σ : Type} (G : GenModel σ) (n : ℤ) (st : σ) : Option (ℤ × σ) :=
  G.nextIntN n st

/-- Forward method Uint64. -/
def Uint64 {σ : Type} (G : GenModel σ) (st : σ) : ℕ × σ := G.nextUint64 st

/-- Random3(): three Float64 draws, left to right. -/
def Random3 {σ : Type} (G : GenModel σ) (st : σ) : (ℝ × ℝ × ℝ) × σ :=
  let p1 := G.nextFloat st
  let p2 := G.nextFloat p1.2
  let p3 := G.nextFloat p2.2
  ((p1.1, p2.1, p3.1), p3.2)

/-- RandomInRange(start, end): l := end - start; start + l * Float64(). -/
def RandomInRange {σ : Type} (G : GenModel σ) (start end_ : ℝ) (st : σ) : ℝ × σ :=
  let l := end_ - start
  let p := G.nextFloat st
  (start + l * p.1, p.2)

/-- RandomUnitVector(): draw three normals, radius := sqrt(x*x+y*y+z*z);
return the normalized triple if radius > 1e-24, else retry.  Fueled. -/
noncomputable def RandomUnitVector {σ : Type} (G : GenModel σ) :
    ℕ → σ → Option (ℝ × ℝ × ℝ) × σ
  | 0, st => (none, st)
  | fuel + 1, st =>
    let p1 := G.nextNorm st
    let p2 := G.nextNorm p1.2
    let p3 := G.nextNorm p2.2
    let radius := Real.sqrt (p1.1 * p1.1 + p2.1 * p2.1 + p3.1 * p3.1)
    if 1e-24 < radius then
      (some (p1.1 / radius, p2.1 / radius, p3.1 / radius), p3.2)
    else
      RandomUnitVector G fuel p3.2

/-- SampleDisc(radius): rejection loop; x := 2*Float64()-1, y := 2*Float64()-1
until x*x+y*y <= 1, then return (radius*x, radius*y).  Fueled. -/
noncomputable def SampleDisc {σ : Type} (G : GenModel σ) (radius : ℝ) :
    ℕ → σ → Option (ℝ × ℝ) × σ
  | 0, st => (none, st)
  | fuel + 1, st =>
    let p1 := G.nextFloat st
    let x := 2 * p1.1 - 1
    let p2 := G.nextFloat p1.2
    let y := 2 * p2.1 - 1
    if x * x + y * y ≤ 1 then (some (radius * x, radius * y), p2.2)
    else SampleDisc G radius fuel p2.2

/-- SampleDiscAngle(radius): theta := 2*pi*Float64(); rad :=
radius*sqrt(Float64()); return (rad*cos(theta), rad*sin(theta)). -/
noncomputable def SampleDiscAngle {σ : Type} (G : GenModel σ) (radius : ℝ)
    (st : σ) : (ℝ × ℝ) × σ :=
  let p1 := G.nextFloat st
  let theta := 2 * Real.pi * p1.1
  let p2 := G.nextFloat p1.2
  let rad := radius * Real.sqrt p2.1
  ((rad * Real.cos theta, rad * Real.sin theta), p2.2)

/-- One method call of the public sampling interface (shape of a call,
including the fuel supplied to the two rejection loops). -/
inductive Call where
  | float64
  | normFloat64
  | intN (n : ℤ)
  | uint64
  | random3
  | inRange (a b : ℝ)
  | unitVector (fuel : ℕ)
  | disc (radius : ℝ) (fuel : ℕ)
  | discAngle (radius : ℝ)

/-- Observable output of one method call. -/
inductive Out where
  | real (x : ℝ)
  | nat (x : ℕ)
  | intOpt (x : Option ℤ)
  | tripleOpt (x : Option (ℝ × ℝ × ℝ))
  | triple (x : ℝ × ℝ × ℝ)
  | pairOpt (x : Option (ℝ × ℝ))
  | pair (x : ℝ × ℝ)

/-- Run one method call on a generator state, producing the observable
output and the successor state. -/
noncomputable def runCall {σ : Type} (G : GenModel σ) (c : Call) (st : σ) :
    Out × σ :=
  match c with
  | .float64 => ((Float64 G st).1 |> Out.real, (Float64 G st).2)
  | .normFloat64 => ((NormFloat64 G st).1 |> Out.real, (NormFloat64 G st).2)
  | .intN n =>
    match IntN G n st with
    | none => (Out.intOpt none, st)
    | some p => (Out.intOpt (some p.1), p.2)
  | .uint64 => (Out.nat (Uint64 G st).1, (Uint64 G st).2)
  | .random3 => (Out.triple (Random3 G st).1, (Random3 G st).2)
  | .inRange a b => (Out.real (RandomInRange G a b st).1, (RandomInRange G a b st).2)
  | .unitVector fuel =>
    (Out.tripleOpt (RandomUnitVector G fuel st).1, (RandomUnitVector G fuel st).2)
  | .disc r fuel =>
    (Out.pairOpt (SampleDisc G r fuel st).1, (SampleDisc G r fuel st).2)
  | .discAngle r =>
    (Out.pair (SampleDiscAngle G r st).1, (SampleDiscAngle G r st).2)

/-- Run a sequence of method calls, collecting the outputs. -/
noncomputable def runCalls {σ : Type} (G : GenModel σ) :
    List Call → σ → List Out
  | [], _ => []
  | c :: cs, st => (runCall G c st).1 :: runCalls G cs (runCall G c st).2

/-- A concrete core-generator model used to instantiate theorems with
hypotheses: the state is a draw counter, every uniform draw is 1/2, every
normal draw is 1.  Its nextIntN follows the documented contract of the
default math/rand/v2 engine, whose IntN panics (modelled as none) when
n <= 0. -/
noncomputable def demoModel : GenModel ℕ where
  nextFloat st := (1 / 2, st + 1)
  nextNorm st := (1, st + 1)
  nextIntN n st := if n ≤ 0 then none else some (0, st + 1)
  nextUint64 st := (st, st + 1)
  newPCG s1 s2 := s1 + 2 ^ 64 * s2

/-- C1: with a nonzero seed s, NewRandIdx(i, s) builds the Sampler from the
seed pair (uint64(i), s); with seed 0 both components come from the entropy
source and the index is ignored. -/
theorem claim_C1 {σ : Type} (G : GenModel σ) (e1 e2 : ℕ) (i j : ℤ) (s : ℕ)
    (hs : s ≠ 0) :
    NewRandIdx G e1 e2 i s = newRandSeeds G (uint64ofInt i) s ∧
    NewRandIdx G e1 e2 i 0 = newRandSeeds G e1 e2 ∧
    NewRandIdx G e1 e2 i 0 = NewRandIdx G e1 e2 j 0 := by
  refine ⟨?_, rfl, rfl⟩
  simp only [NewRandIdx, if_neg hs]

theorem claim_C1_witness :
    NewRandIdx demoModel 7 8 3 5 = newRandSeeds demoModel (uint64ofInt 3) 5 ∧
    NewRandIdx demoModel 7 8 3 0 = newRandSeeds demoModel 7 8 ∧
    NewRandIdx demoModel 7 8 3 0 = NewRandIdx demoModel 7 8 4 0 :=
  claim_C1 demoModel 7 8 3 4 5 (by decide)

/-- C2: two Samplers constructed with the same nonzero (index, seed) pair
produce identical output sequences for any identical sequence of method
calls, whatever entropy values each construction had available. -/
theorem claim_C2 {σ : Type} (G : GenModel σ) (e1 e2 f1 f2 : ℕ) (i j : ℤ)
    (s t : ℕ) (hs : s ≠ 0) (hij : uint64ofInt i = uint64ofInt j)
    (hst : s = t) (calls : List Call) :
    runCalls G calls (NewRandIdx G e1 e2 i s) =
      runCalls G calls (NewRandIdx G f1 f2 j t) := by
  have ht : t ≠ 0 := hst ▸ hs
  have hinit : NewRandIdx G e1 e2 i s = NewRandIdx G f1 f2 j t := by
    simp only [NewRandIdx, if_neg hs, if_neg ht, hij, hst]
  rw [hinit]

theorem claim_C2_witness :
    runCalls demoModel [Call.float64, Call.random3, Call.uint64]
        (NewRandIdx demoModel 1 2 3 5) =
      runCalls demoModel [Call.float64, Call.random3, Call.uint64]
        (NewRandIdx demoModel 9 9 3 5) :=
  claim_C2 demoModel 1 2 9 9 3 3 5 5 (by decide) rfl rfl _

/-- C10: for a negative index i in the 64-bit int range and a nonzero seed,
NewRandIdx uses the two's-complement conversion 2^64 + i as the first seed
component; the conversion is injective on negative indices, and no index is
rejected. -/
theorem claim_C10 {σ : Type} (G : GenModel σ) (e1 e2 : ℕ) (i j : ℤ) (s : ℕ)
    (hi : -2 ^ 63 ≤ i) (hi0 : i < 0) (hj : -2 ^ 63 ≤ j) (hj0 : j < 0)
    (hs : s ≠ 0) :
    (uint64ofInt i : ℤ) = 2 ^ 64 + i ∧
    NewRandIdx G e1 e2 i s = newRandSeeds G (uint64ofInt i) s ∧
    (uint64ofInt i = uint64ofInt j → i = j) := by
  have conv : ∀ k : ℤ, -2 ^ 63 ≤ k → k < 0 → (uint64ofInt k : ℤ) = 2 ^ 64 + k := by
    intro k hk hk0
    have hmod : k % 2 ^ 64 = 2 ^ 64 + k := by omega
    have hnn : (0 : ℤ) ≤ 2 ^ 64 + k := by omega
    simp only [uint64ofInt, hmod, Int.toNat_of_nonneg hnn]
  refine ⟨conv i hi hi0, by simp only [NewRandIdx, if_neg hs], ?_⟩
  intro hEq
  have h1 : (uint64ofInt i : ℤ) = (uint64ofInt j : ℤ) := by exact_mod_cast hEq
  rw [conv i hi hi0, conv j hj hj0] at h1
  omega

theorem claim_C10_witness :
    (uint64ofInt (-1) : ℤ) = 2 ^ 64 + (-1) ∧
    NewRandIdx demoModel 7 8 (-1) 5 = newRandSeeds demoModel (uint64ofInt (-1)) 5 ∧
    (uint64ofInt (-1) = uint64ofInt (-2) → (-1 : ℤ) = -2) :=
  claim_C10 demoModel 7 8 (-1) (-2) 5 (by norm_num) (by norm_num)
    (by norm_num) (by norm_num) (by decide)

/-- C6 counterexample: with start = end = 0 (so end >= start) the returned
value 0 does not lie in the empty interval [0, 0), refuting the claim for
end = start. -/
theorem claim_C6_cex : (RandomInRange demoModel 0 0 0).1 ∉ Set.Ico (0 : ℝ) 0 := by
  simp [Set.mem_Ico]

/-- C6 (amended): UniformRange(start, end) returns
start + (end - start) * UniformFloat(); when end is strictly greater than
start and the core draws lie in [0,1), the result lies in [start, end). -/
theorem claim_C6 {σ : Type} (G : GenModel σ) (hG : G.ValidFloats)
    (start end_ : ℝ) (st : σ) :
    RandomInRange G start end_ st =
      (start + (end_ - start) * (G.nextFloat st).1, (G.nextFloat st).2) ∧
    (start < end_ → (RandomInRange G start end_ st).1 ∈ Set.Ico start end_) := by
  obtain ⟨h0, h1⟩ := hG st
  refine ⟨rfl, fun hlt => ?_⟩
  simp only [RandomInRange, Set.mem_Ico]
  constructor
  · nlinarith
  · nlinarith

theorem claim_C6_witness :
    RandomInRange demoModel 0 1 0 =
      (0 + (1 - 0) * (demoModel.nextFloat 0).1, (demoModel.nextFloat 0).2) ∧
    (0 < (1 : ℝ) → (RandomInRange demoModel 0 1 0).1 ∈ Set.Ico (0 : ℝ) 1) :=
  claim_C6 demoModel
    (fun _ => ⟨by norm_num [demoModel], by norm_num [demoModel]⟩) 0 1 0

/-- C7: Random3() returns three Float64 draws in order x then y then z and
leaves the generator exactly three draws ahead; replaying a Sampler seeded
with the same nonzero (index, seed) pair reproduces the same triple. -/
theorem claim_C7 {σ : Type} (G : GenModel σ) (e1 e2 f1 f2 : ℕ) (i : ℤ)
    (s : ℕ) (st st1 st2 st3 : σ) (x y z : ℝ)
    (h1 : G.nextFloat st = (x, st1)) (h2 : G.nextFloat st1 = (y, st2))
    (h3 : G.nextFloat st2 = (z, st3)) (hs : s ≠ 0) :
    Random3 G st = ((x, y, z), st3) ∧
    Random3 G (NewRandIdx G e1 e2 i s) = Random3 G (NewRandIdx G f1 f2 i s) := by
  constructor
  · simp only [Random3, h1, h2, h3]
  · simp only [NewRandIdx, if_neg hs]

theorem claim_C7_witness :
    Random3 demoModel 0 = ((1 / 2, 1 / 2, 1 / 2), 3) ∧
    Random3 demoModel (NewRandIdx demoModel 1 2 0 5) =
      Random3 demoModel (NewRandIdx demoModel 3 4 0 5) :=
  claim_C7 demoModel 1 2 3 4 0 5 0 1 2 3 (1 / 2) (1 / 2) (1 / 2)
    rfl rfl rfl (by decide)

/-- C9 counterexample: under the documented contract of the default
math/rand/v2 engine, IntN(0) is a panic (none), not a non-crashing numeric
result, refuting the claim for BoundedInt. -/
theorem claim_C9_cex : IntN demoModel 0 0 = none := by
  have h : IntN demoModel 0 0 = if (0 : ℤ) ≤ 0 then none else some (0, 1) := rfl
  rw [h, if_pos le_rfl]

/-- C9 (amended): neither operation performs a runtime check — the wrapper
forwards IntN to the core generator unchanged, and UniformRange with
end < start still returns the numeric value start + (end-start)*u (reversed
range, no crash); but for n <= 0 the default math/rand/v2 core generator
panics in IntN, so BoundedInt yields no numeric result there. -/
theorem claim_C9 {σ : Type} (G : GenModel σ) (start end_ : ℝ) (st : σ)
    (n : ℤ) (st0 : ℕ) (_hlt : end_ < start) (hn : n ≤ 0) :
    (RandomInRange G start end_ st).1 =
      start + (end_ - start) * (G.nextFloat st).1 ∧
    IntN G n st = G.nextIntN n st ∧
    IntN demoModel n st0 = none := by
  refine ⟨rfl, rfl, ?_⟩
  have h : IntN demoModel n st0 = if n ≤ 0 then none else some (0, st0 + 1) := rfl
  rw [h, if_pos hn]

theorem claim_C9_witness :
    (RandomInRange demoModel 1 0 0).1 =
      1 + (0 - 1) * (demoModel.nextFloat 0).1 ∧
    IntN demoModel 0 0 = demoModel.nextIntN 0 0 ∧
    IntN demoModel 0 0 = none :=
  claim_C9 demoModel 1 0 0 0 0 (by norm_num) (by norm_num)

/-- Unfolding of one iteration of the RandomUnitVector rejection loop. -/
theorem randomUnitVector_step {σ : Type} (G : GenModel σ) (fuel : ℕ)
    (st st1 st2 st3 : σ) (x y z : ℝ)
    (h1 : G.nextNorm st = (x, st1)) (h2 : G.nextNorm st1 = (y, st2))
    (h3 : G.nextNorm st2 = (z, st3)) :
    RandomUnitVector G (fuel + 1) st =
      if 1e-24 < Real.sqrt (x * x + y * y + z * z) then
        (some (x / Real.sqrt (x * x + y * y + z * z),
               y / Real.sqrt (x * x + y * y + z * z),
               z / Real.sqrt (x * x + y * y + z * z)), st3)
      else RandomUnitVector G fuel st3 := by
  simp only [RandomUnitVector, h1, h2, h3]

/-- Every successful RandomUnitVector result is a normalized triple of three
successive normal draws whose radius exceeded the 1e-24 floor. -/
theorem randomUnitVector_sound {σ : Type} (G : GenModel σ) :
    ∀ (fuel : ℕ) (st stf : σ) (v : ℝ × ℝ × ℝ),
      RandomUnitVector G fuel st = (some v, stf) →
      ∃ (st0 sta stb : σ) (a b c : ℝ),
        G.nextNorm st0 = (a, sta) ∧ G.nextNorm sta = (b, stb) ∧
        G.nextNorm stb = (c, stf) ∧
        1e-24 < Real.sqrt (a * a + b * b + c * c) ∧
        v = (a / Real.sqrt (a * a + b * b + c * c),
             b / Real.sqrt (a * a + b * b + c * c),
             c / Real.sqrt (a * a + b * b + c * c)) := by
  intro fuel
  induction fuel with
  | zero =>
    intro st stf v h
    simp [RandomUnitVector] at h
  | succ n ih =>
    intro st stf v h
    rw [randomUnitVector_step G n st (G.nextNorm st).2
      (G.nextNorm (G.nextNorm st).2).2
      (G.nextNorm (G.nextNorm (G.nextNorm st).2).2).2
      (G.nextNorm st).1 (G.nextNorm (G.nextNorm st).2).1
      (G.nextNorm (G.nextNorm (G.nextNorm st).2).2).1 rfl rfl rfl] at h
    by_cases hc : 1e-24 < Real.sqrt
        ((G.nextNorm st).1 * (G.nextNorm st).1 +
         (G.nextNorm (G.nextNorm st).2).1 * (G.nextNorm (G.nextNorm st).2).1 +
         (G.nextNorm (G.nextNorm (G.nextNorm st).2).2).1 *
           (G.nextNorm (G.nextNorm (G.nextNorm st).2).2).1)
    · rw [if_pos hc, Prod.mk.injEq] at h
      obtain ⟨hv, hst⟩ := h
      exact ⟨st, (G.nextNorm st).2, (G.nextNorm (G.nextNorm st).2).2,
        (G.nextNorm st).1, (G.nextNorm (G.nextNorm st).2).1,
        (G.nextNorm (G.nextNorm (G.nextNorm st).2).2).1,
        rfl, rfl, by rw [← hst], hc, (Option.some.inj hv).symm⟩
    · rw [if_neg hc] at h
      exact ih _ _ _ h

/-- C3: one loop iteration of UnitVector3 draws three normals x, y, z and
returns the normalized triple exactly when sqrt(x*x+y*y+z*z) > 1e-24,
otherwise redraws all three; every returned vector is a normalized triple
whose radius (the denominator of each division) exceeded 1e-24. -/
theorem claim_C3 {σ : Type} (G : GenModel σ) (fuel : ℕ) (st st1 st2 st3 stf : σ)
    (x y z : ℝ) (v : ℝ × ℝ × ℝ)
    (h1 : G.nextNorm st = (x, st1)) (h2 : G.nextNorm st1 = (y, st2))
    (h3 : G.nextNorm st2 = (z, st3)) :
    (1e-24 < Real.sqrt (x * x + y * y + z * z) →
      RandomUnitVector G (fuel + 1) st =
        (some (x / Real.sqrt (x * x + y * y + z * z),
               y / Real.sqrt (x * x + y * y + z * z),
               z / Real.sqrt (x * x + y * y + z * z)), st3)) ∧
    (¬ 1e-24 < Real.sqrt (x * x + y * y + z * z) →
      RandomUnitVector G (fuel + 1) st = RandomUnitVector G fuel st3) ∧
    (RandomUnitVector G fuel st = (some v, stf) →
      ∃ (st0 sta stb : σ) (a b c : ℝ),
        G.nextNorm st0 = (a, sta) ∧ G.nextNorm sta = (b, stb) ∧
        G.nextNorm stb = (c, stf) ∧
        1e-24 < Real.sqrt (a * a + b * b + c * c) ∧
        v = (a / Real.sqrt (a * a + b * b + c * c),
             b / Real.sqrt (a * a + b * b + c * c),
             c / Real.sqrt (a * a + b * b + c * c))) := by
  refine ⟨fun hc => ?_, fun hc => ?_, randomUnitVector_sound G fuel st stf v⟩
  · rw [randomUnitVector_step G fuel st st1 st2 st3 x y z h1 h2 h3, if_pos hc]
  · rw [randomUnitVector_step G fuel st st1 st2 st3 x y z h1 h2 h3, if_neg hc]

theorem claim_C3_witness :
    RandomUnitVector demoModel 1 0 =
      (some (1 / Real.sqrt (1 * 1 + 1 * 1 + 1 * 1),
             1 / Real.sqrt (1 * 1 + 1 * 1 + 1 * 1),
             1 / Real.sqrt (1 * 1 + 1 * 1 + 1 * 1)), 3) :=
  (claim_C3 demoModel 0 0 1 2 3 0 1 1 1 (0, 0, 0) rfl rfl rfl).1
    (by
      have h3 : (1 : ℝ) ≤ Real.sqrt (1 * 1 + 1 * 1 + 1 * 1) := by
        rw [show (1 * 1 + 1 * 1 + 1 * 1 : ℝ) = 3 by norm_num]
        nlinarith [Real.sq_sqrt (by norm_num : (0:ℝ) ≤ 3),
          Real.sqrt_nonneg (3 : ℝ)]
      calc (1e-24 : ℝ) < 1 := by norm_num
        _ ≤ _ := h3)

/-- C8: every vector returned by UnitVector3 has Euclidean length within
1e-9 of 1 (in the real-number model the length is exactly 1). -/
theorem claim_C8 {σ : Type} (G : GenModel σ) (fuel : ℕ) (st stf : σ)
    (x y z : ℝ) (h : RandomUnitVector G fuel st = (some (x, y, z), stf)) :
    |Real.sqrt (x * x + y * y + z * z) - 1| ≤ 1e-9 := by
  obtain ⟨st0, sta, stb, a, b, c, _, _, _, hrad, hv⟩ :=
    randomUnitVector_sound G fuel st stf (x, y, z) h
  obtain ⟨hx, hy, hz⟩ : x = a / Real.sqrt (a * a + b * b + c * c) ∧
      y = b / Real.sqrt (a * a + b * b + c * c) ∧
      z = c / Real.sqrt (a * a + b * b + c * c) := by
    have h1 := congrArg Prod.fst hv
    have h2 := congrArg (fun p : ℝ × ℝ × ℝ => p.2.1) hv
    have h3 := congrArg (fun p : ℝ × ℝ × ℝ => p.2.2) hv
    exact ⟨h1, h2, h3⟩
  have hs0 : (0 : ℝ) ≤ a * a + b * b + c * c :=
    add_nonneg (add_nonneg (mul_self_nonneg a) (mul_self_nonneg b))
      (mul_self_nonneg c)
  have hr : (0 : ℝ) < Real.sqrt (a * a + b * b + c * c) :=
    lt_trans (by norm_num) hrad
  have hrr : Real.sqrt (a * a + b * b + c * c) *
      Real.sqrt (a * a + b * b + c * c) = a * a + b * b + c * c :=
    Real.mul_self_sqrt hs0
  have hspos : (0 : ℝ) < a * a + b * b + c * c := hrr ▸ mul_pos hr hr
  have hsum : x * x + y * y + z * z = 1 := by
    rw [hx, hy, hz, div_mul_div_comm, div_mul_div_comm, div_mul_div_comm,
      div_add_div_same, div_add_div_same, hrr]
    exact div_self hspos.ne'
  rw [hsum, Real.sqrt_one]
  norm_num

theorem claim_C8_witness :
    |Real.sqrt ((1 / Real.sqrt (1 * 1 + 1 * 1 + 1 * 1)) *
        (1 / Real.sqrt (1 * 1 + 1 * 1 + 1 * 1)) +
      (1 / Real.sqrt (1 * 1 + 1 * 1 + 1 * 1)) *
        (1 / Real.sqrt (1 * 1 + 1 * 1 + 1 * 1)) +
      (1 / Real.sqrt (1 * 1 + 1 * 1 + 1 * 1)) *
        (1 / Real.sqrt (1 * 1 + 1 * 1 + 1 * 1))) - 1| ≤ 1e-9 :=
  claim_C8 demoModel 1 0 3 _ _ _
    (by
      rw [randomUnitVector_step demoModel 0 0 1 2 3 1 1 1 rfl rfl rfl]
      rw [if_pos]
      have h3 : (1 : ℝ) ≤ Real.sqrt (1 * 1 + 1 * 1 + 1 * 1) := by
        rw [show (1 * 1 + 1 * 1 + 1 * 1 : ℝ) = 3 by norm_num]
        nlinarith [Real.sq_sqrt (by norm_num : (0:ℝ) ≤ 3),
          Real.sqrt_nonneg (3 : ℝ)]
      calc (1e-24 : ℝ) < 1 := by norm_num
        _ ≤ _ := h3)

/-- C4: SampleDiscAngle(r) consumes exactly two uniform draws with no
rejection loop — theta = 2*pi*u1 from the first draw, then rad = r*sqrt(u2)
from the second — and returns (rad*cos(theta), rad*sin(theta)), leaving the
generator exactly two draws ahead. -/
theorem claim_C4 {σ : Type} (G : GenModel σ) (r : ℝ) (st st1 st2 : σ)
    (u1 u2 : ℝ) (h1 : G.nextFloat st = (u1, st1))
    (h2 : G.nextFloat st1 = (u2, st2)) :
    SampleDiscAngle G r st =
      ((r * Real.sqrt u2 * Real.cos (2 * Real.pi * u1),
        r * Real.sqrt u2 * Real.sin (2 * Real.pi * u1)), st2) := by
  simp only [SampleDiscAngle, h1, h2]

theorem claim_C4_witness :
    SampleDiscAngle demoModel 2 0 =
      ((2 * Real.sqrt (1 / 2) * Real.cos (2 * Real.pi * (1 / 2)),
        2 * Real.sqrt (1 / 2) * Real.sin (2 * Real.pi * (1 / 2))), 2) :=
  claim_C4 demoModel 2 0 1 2 (1 / 2) (1 / 2) rfl rfl

/-- Unfolding of one iteration of the SampleDisc rejection loop. -/
theorem sampleDisc_step {σ : Type} (G : GenModel σ) (r : ℝ) (fuel : ℕ)
    (st st1 st2 : σ) (u v : ℝ)
    (h1 : G.nextFloat st = (u, st1)) (h2 : G.nextFloat st1 = (v, st2)) :
    SampleDisc G r (fuel + 1) st =
      if (2 * u - 1) * (2 * u - 1) + (2 * v - 1) * (2 * v - 1) ≤ 1 then
        (some (r * (2 * u - 1), r * (2 * v - 1)), st2)
      else SampleDisc G r fuel st2 := by
  simp only [SampleDisc, h1, h2]

/-- Every successful SampleDisc result is r times an accepted point of the
unit disc. -/
theorem sampleDisc_sound {σ : Type} (G : GenModel σ) (r : ℝ) :
    ∀ (fuel : ℕ) (st stf : σ) (x y : ℝ),
      SampleDisc G r fuel st = (some (x, y), stf) →
      ∃ a b : ℝ, x = r * a ∧ y = r * b ∧ a * a + b * b ≤ 1 := by
  intro fuel
  induction fuel with
  | zero =>
    intro st stf x y h
    simp [SampleDisc] at h
  | succ n ih =>
    intro st stf x y h
    rw [sampleDisc_step G r n st (G.nextFloat st).2
      (G.nextFloat (G.nextFloat st).2).2 (G.nextFloat st).1
      (G.nextFloat (G.nextFloat st).2).1 rfl rfl] at h
    by_cases hc : (2 * (G.nextFloat st).1 - 1) * (2 * (G.nextFloat st).1 - 1) +
        (2 * (G.nextFloat (G.nextFloat st).2).1 - 1) *
          (2 * (G.nextFloat (G.nextFloat st).2).1 - 1) ≤ 1
    · rw [if_pos hc, Prod.mk.injEq] at h
      obtain ⟨hv, _⟩ := h
      obtain ⟨hx, hy⟩ := Prod.mk.injEq .. ▸ Option.some.inj hv
      exact ⟨2 * (G.nextFloat st).1 - 1,
        2 * (G.nextFloat (G.nextFloat st).2).1 - 1, hx.symm, hy.symm, hc⟩
    · rw [if_neg hc] at h
      exact ih _ _ _ _ h

/-- C5: with r >= 0 and core draws in [0,1), every point returned by
SampleDisc(r) and every point returned by SampleDiscAngle(r) lies within
Euclidean distance r of the origin. -/
theorem claim_C5 {σ : Type} (G : GenModel σ) (hG : G.ValidFloats) (r : ℝ)
    (hr : 0 ≤ r) (fuel : ℕ) (st std stf sta : σ) (x y xa ya : ℝ)
    (hd : SampleDisc G r fuel std = (some (x, y), stf))
    (ha : SampleDiscAngle G r st = ((xa, ya), sta)) :
    Real.sqrt (x * x + y * y) ≤ r ∧ Real.sqrt (xa * xa + ya * ya) ≤ r := by
  constructor
  · obtain ⟨a, b, hx, hy, hab⟩ := sampleDisc_sound G r fuel std stf x y hd
    have hxy : x * x + y * y = r * r * (a * a + b * b) := by
      rw [hx, hy]; ring
    have hle : x * x + y * y ≤ r * r := by
      rw [hxy]
      calc r * r * (a * a + b * b) ≤ r * r * 1 :=
            mul_le_mul_of_nonneg_left hab (mul_nonneg hr hr)
        _ = r * r := mul_one _
    calc Real.sqrt (x * x + y * y) ≤ Real.sqrt (r * r) :=
          Real.sqrt_le_sqrt hle
      _ = r := Real.sqrt_mul_self hr
  · have he : SampleDiscAngle G r st =
        ((r * Real.sqrt ((G.nextFloat (G.nextFloat st).2).1) *
            Real.cos (2 * Real.pi * (G.nextFloat st).1),
          r * Real.sqrt ((G.nextFloat (G.nextFloat st).2).1) *
            Real.sin (2 * Real.pi * (G.nextFloat st).1)),
         (G.nextFloat (G.nextFloat st).2).2) := rfl
    rw [he, Prod.mk.injEq] at ha
    obtain ⟨hv, _⟩ := ha
    obtain ⟨hxa, hya⟩ := Prod.mk.injEq .. ▸ hv
    obtain ⟨hu0, hu1⟩ := hG (G.nextFloat st).2
    have hsq : Real.sqrt ((G.nextFloat (G.nextFloat st).2).1) ≤ 1 :=
      Real.sqrt_le_one.mpr hu1.le
    have hrad0 : 0 ≤ r * Real.sqrt ((G.nextFloat (G.nextFloat st).2).1) :=
      mul_nonneg hr (Real.sqrt_nonneg _)
    have hcs := Real.sin_sq_add_cos_sq (2 * Real.pi * (G.nextFloat st).1)
    have hxy : xa * xa + ya * ya =
        (r * Real.sqrt ((G.nextFloat (G.nextFloat st).2).1)) *
          (r * Real.sqrt ((G.nextFloat (G.nextFloat st).2).1)) := by
      rw [← hxa, ← hya]
      linear_combination (r * Real.sqrt ((G.nextFloat (G.nextFloat st).2).1)) *
        (r * Real.sqrt ((G.nextFloat (G.nextFloat st).2).1)) * hcs
    calc Real.sqrt (xa * xa + ya * ya)
        = r * Real.sqrt ((G.nextFloat (G.nextFloat st).2).1) := by
          rw [hxy, Real.sqrt_mul_self hrad0]
      _ ≤ r * 1 := mul_le_mul_of_nonneg_left hsq hr
      _ = r := mul_one r

theorem claim_C5_witness :
    Real.sqrt ((1 * (2 * (1 / 2) - 1)) * (1 * (2 * (1 / 2) - 1)) +
        (1 * (2 * (1 / 2) - 1)) * (1 * (2 * (1 / 2) - 1))) ≤ 1 ∧
    Real.sqrt ((1 * Real.sqrt (1 / 2) * Real.cos (2 * Real.pi * (1 / 2))) *
          (1 * Real.sqrt (1 / 2) * Real.cos (2 * Real.pi * (1 / 2))) +
        (1 * Real.sqrt (1 / 2) * Real.sin (2 * Real.pi * (1 / 2))) *
          (1 * Real.sqrt (1 / 2) * Real.sin (2 * Real.pi * (1 / 2)))) ≤ 1 :=
  claim_C5 demoModel
    (fun _ => ⟨by norm_num [demoModel], by norm_num [demoModel]⟩) 1
    (by norm_num) 1 0 0 2 2 _ _ _ _
    (by
      rw [sampleDisc_step demoModel 1 0 0 1 2 (1 / 2) (1 / 2) rfl rfl,
        if_pos (by norm_num)])
    rfl

end FortioRand
